import Mathlib

/-!
Verification of the sudsy HTTP middleware library: the rate-limiting engine
(internal/ratelimiting) and the URL pattern router (internal/urlpathpatternhandler,
internal/application/section_handler.go), shallowly embedded in Lean.

Conventions of the embedding:
* Go `time.Time` values and `time.Duration` values are modelled as `Int`
  (instants and durations in nanoseconds).  Go's zero `time.Time` — the
  sentinel that `bannedAt` uses for "not banned" — is modelled as `0`.
* Go `int64` counters are modelled as `Int`; no claim here depends on
  64-bit overflow, all relevant quantities stay far below 2^63.
* Fallible Go functions returning `error` are modelled with `Except` /
  explicit result types.
-/

/-- Model of `sessionConfig` (ratelimiting.go): one throttling policy.
Field order follows the Go struct: banDuration, sessionDuration, maxRequests. -/
structure SessionConfig where
  banDuration : Int
  sessionDuration : Int
  maxRequests : Int
deriving DecidableEq

/-- Model of `session` (the per-policy session tracker struct):
requestCount, config, bannedAt, startedAt, in source field order. -/
structure Session where
  requestCount : Int
  config : SessionConfig
  bannedAt : Int
  startedAt : Int
deriving DecidableEq

/-- Model of `clientEntry`: the trackers for one client identity plus the
last-updated timestamp used for idle eviction. -/
structure ClientEntry where
  sessions : List Session
  lastUpdatedAt : Int
deriving DecidableEq

/-- Model of `clientEntry.isBanned`: true iff any session has a non-zero
(i.e. non-`time.Time{}`) ban timestamp. -/
def ClientEntry.isBanned (c : ClientEntry) : Bool :=
  c.sessions.any (fun s => s.bannedAt != 0)

/-- Model of `newClientEntry`: one session per configured policy.  The Go
composite literal `session{startedAt: t, config: c}` zero-initializes the
omitted fields, so `requestCount := 0` and `bannedAt := 0` below are the
Go zero values, exactly as in the source. -/
def newClientEntry (t : Int) (sessionConfigs : List SessionConfig) : ClientEntry :=
  { sessions := sessionConfigs.map (fun c =>
      { requestCount := 0, config := c, bannedAt := 0, startedAt := t }),
    lastUpdatedAt := t }

/-- Model of the loop body of `newUpdatedEntry`: advance one session tracker
to timestamp `t`.  The Go code first copies bannedAt/startedAt/config into
the updated session and then overwrites fields per branch; the two branches
below are the two resulting field assignments. -/
def newUpdatedSession (s : Session) (t : Int) : Session :=
  let currentSessionLength := t - s.startedAt
  if currentSessionLength ≥ s.config.sessionDuration then
    { requestCount := 1,
      config := s.config,
      -- "Establish or extend the ban."
      bannedAt := if s.requestCount > s.config.maxRequests then t else s.bannedAt,
      startedAt := t }
  else
    { requestCount := s.requestCount + 1,
      config := s.config,
      bannedAt := s.bannedAt,
      startedAt := s.startedAt }

/-- Model of `newUpdatedEntry`: advance every session tracker of an existing
entry and stamp `lastUpdatedAt := t`. -/
def newUpdatedEntry (existingEntry : ClientEntry) (t : Int) : ClientEntry :=
  { sessions := existingEntry.sessions.map (fun s => newUpdatedSession s t),
    lastUpdatedAt := t }

/-- Model of the per-host bookkeeping of `handler.ServeHTTP` (ratelimiting.go)
for one request at time `t`: update the existing entry or create a fresh one,
then report whether the client is now banned (`true` = the request is
short-circuited with the too-many-requests response). -/
def serveHost (sessionConfigs : List SessionConfig) (entry : Option ClientEntry) (t : Int) :
    ClientEntry × Bool :=
  let e := match entry with
    | some prev => newUpdatedEntry prev t
    | none => newClientEntry t sessionConfigs
  (e, e.isBanned)

/-- Runs `serveHost` over a sequence of request timestamps for a single client,
returning the final cache state for that client and the per-request rejection
decisions (`true` = rejected with too-many-requests). -/
def serveHostAll (sessionConfigs : List SessionConfig) :
    Option ClientEntry → List Int → Option ClientEntry × List Bool
  | entry, [] => (entry, [])
  | entry, t :: ts =>
    let r := serveHost sessionConfigs entry t
    let rest := serveHostAll sessionConfigs (some r.1) ts
    (rest.1, r.2 :: rest.2)

/-- Model of `maps.DeleteFunc`: remove the elements on which `del` holds. -/
def deleteFunc {α : Type} (del : α → Bool) (l : List α) : List α :=
  l.filter (fun x => ! del x)

/-- Model of `handler.onHostCacheGroomingTick`: at tick time `t`, delete every
cache entry whose idle duration `t - lastUpdatedAt` strictly exceeds the idle
threshold.  The Go map is modelled as an association list. -/
def onHostCacheGroomingTick (t idleThreshold : Int)
    (cache : List (String × ClientEntry)) : List (String × ClientEntry) :=
  deleteFunc (fun p => decide (t - p.2.lastUpdatedAt > idleThreshold)) cache

/-- Helper for status reporting of `getApplicableHost`: whether the model of a
Go `(value, error)` pair is the error case. -/
def exceptIsError (e : Except String String) : Bool :=
  match e with
  | .error _ => true
  | .ok _ => false

/-- Model of `getApplicableHost` (ratelimiting.go).  `fastlyClientIP` is the
result of `r.Header.Get("fastly-client-ip")` (empty string when the header is
absent), `xForwardedFor` the value list of `r.Header.Values("x-forwarded-for")`,
and `splitHostPort` stands for the Go standard-library `net.SplitHostPort`
applied to `r.RemoteAddr` (a parameter, since that function is not part of this
repository). -/
def getApplicableHost (splitHostPort : String → Except String String)
    (fastlyClientIP : String) (xForwardedFor : List String) (remoteAddr : String) :
    Except String String :=
  if fastlyClientIP ≠ "" then .ok fastlyClientIP
  else if xForwardedFor.length > 0 then .ok (xForwardedFor.getLastD "")
  else
    match splitHostPort remoteAddr with
    | .error e => .error e
    | .ok host => if host ≠ "" then .ok host else .error "no applicable host"

/-- Overriding the (never read) ban duration of one tracker's config. -/
def setBanDuration (b : Int) (s : Session) : Session :=
  { s with config := { s.config with banDuration := b } }

/-- Overriding the ban duration in every tracker of a client entry. -/
def mapBanDuration (b : Int) (e : ClientEntry) : ClientEntry :=
  { e with sessions := e.sessions.map (setBanDuration b) }

/-! ## Helper lemmas for the rate limiter -/

/-- A non-zero ban timestamp survives one update step whenever the update
timestamp is itself non-zero (real clock readings never equal Go's zero time). -/
theorem bannedAt_ne_zero_step (s : Session) (t : Int) (ht : t ≠ 0)
    (hb : s.bannedAt ≠ 0) : (newUpdatedSession s t).bannedAt ≠ 0 := by
  unfold newUpdatedSession
  by_cases h1 : t - s.startedAt ≥ s.config.sessionDuration
  · rw [if_pos h1]
    by_cases h2 : s.requestCount > s.config.maxRequests
    · simpa [h2] using ht
    · simpa [h2] using hb
  · rw [if_neg h1]
    exact hb

/-- A banned client entry stays banned across one update step with a non-zero
timestamp. -/
theorem isBanned_step (e : ClientEntry) (t : Int) (ht : t ≠ 0)
    (hb : e.isBanned = true) : (newUpdatedEntry e t).isBanned = true := by
  unfold ClientEntry.isBanned newUpdatedEntry at *
  obtain ⟨s, hs, hsb⟩ := List.any_eq_true.mp hb
  refine List.any_eq_true.mpr ⟨newUpdatedSession s t, List.mem_map_of_mem _ hs, ?_⟩
  have hsb' : s.bannedAt ≠ 0 := by simpa using hsb
  simpa using bannedAt_ne_zero_step s t ht hsb'

/-- An in-window update increments the request count and leaves window start
and (zero) ban time untouched. -/
theorem inWindow_step (c : Int) (cfg : SessionConfig) (t0 t : Int)
    (h : t - t0 < cfg.sessionDuration) :
    newUpdatedSession ⟨c, cfg, 0, t0⟩ t = ⟨c + 1, cfg, 0, t0⟩ := by
  unfold newUpdatedSession
  rw [if_neg]
  simpa using h

/-- An update at or past window expiry with an over-limit count starts a new
window and stamps the ban time with the update timestamp. -/
theorem expiredOver_step (c : Int) (cfg : SessionConfig) (t0 t : Int)
    (h1 : cfg.sessionDuration ≤ t - t0) (h2 : cfg.maxRequests < c) :
    newUpdatedSession ⟨c, cfg, 0, t0⟩ t = ⟨1, cfg, t, t⟩ := by
  unfold newUpdatedSession
  rw [if_pos (by simpa using h1)]
  simp [h2]

/-- Decomposing a run of requests into two consecutive runs. -/
theorem serveHostAll_append (cfgs : List SessionConfig) (xs ys : List Int)
    (st : Option ClientEntry) :
    serveHostAll cfgs st (xs ++ ys)
      = ((serveHostAll cfgs (serveHostAll cfgs st xs).1 ys).1,
         (serveHostAll cfgs st xs).2 ++ (serveHostAll cfgs (serveHostAll cfgs st xs).1 ys).2) := by
  induction xs generalizing st with
  | nil => rfl
  | cons t ts ih => simp [serveHostAll, ih]

/-- A run of requests that all fall inside the current window of a single,
unbanned tracker: every request is forwarded and the count grows by the number
of requests, with window start unchanged and no ban. -/
theorem serveHostAll_inWindow (cfg : SessionConfig) (ts : List Int) (c t0 lu : Int)
    (hts : ∀ t ∈ ts, t - t0 < cfg.sessionDuration) :
    ∃ lu2, serveHostAll [cfg] (some ⟨[⟨c, cfg, 0, t0⟩], lu⟩) ts
      = (some ⟨[⟨c + ts.length, cfg, 0, t0⟩], lu2⟩, List.replicate ts.length false) := by
  induction ts generalizing c lu with
  | nil => exact ⟨lu, by simp [serveHostAll]⟩
  | cons t ts ih =>
    have h1 : t - t0 < cfg.sessionDuration := hts t (by simp)
    obtain ⟨lu2, h2⟩ := ih (c + 1) t (fun u hu => hts u (by simp [hu]))
    refine ⟨lu2, ?_⟩
    have hcast : c + 1 + (ts.length : Int) = c + ((ts.length : Int) + 1) := by ring
    simp only [serveHostAll, serveHost, newUpdatedEntry, List.map_cons, List.map_nil,
      inWindow_step c cfg t0 t h1]
    simp only [ClientEntry.isBanned, List.any_cons, List.any_nil]
    rw [h2]
    simp [List.replicate_succ, hcast]

/-- A run of requests against an already banned client entry with non-zero
timestamps: every request is rejected. -/
theorem serveHostAll_banned (cfgs : List SessionConfig) (ts : List Int) (e : ClientEntry)
    (hb : e.isBanned = true) (hts : ∀ t ∈ ts, t ≠ 0) :
    (serveHostAll cfgs (some e) ts).2 = List.replicate ts.length true := by
  induction ts generalizing e with
  | nil => rfl
  | cons t ts ih =>
    have ht : t ≠ 0 := hts t (by simp)
    have hb2 : (newUpdatedEntry e t).isBanned = true := isBanned_step e t ht hb
    simp [serveHostAll, serveHost, hb2, List.replicate_succ,
      ih (newUpdatedEntry e t) hb2 (fun u hu => hts u (by simp [hu]))]

/-! ## Claims C2, C3, C4, C9, C10 -/

/-- Claim C2 (confirmed): advancing an existing tracker at time `t`.  If the
window has expired (`t - windowStart ≥ sessionDuration`), the new window start
is `t`, the count is reset to 1, and the ban time is set to `t` exactly when
the expired window's count strictly exceeded `maxRequests` (otherwise the old
ban time is carried forward; the biconditional is stated under the hypothesis
that the old ban time does not coincidentally equal `t`).  Otherwise the count
is incremented and ban time and window start are unchanged.  The first
conjunct records that `newUpdatedEntry` advances every tracker this way. -/
theorem claim_C2 (e : ClientEntry) (t : Int) (s : Session) :
    (newUpdatedEntry e t).sessions = e.sessions.map (fun s0 => newUpdatedSession s0 t) ∧
    (t - s.startedAt ≥ s.config.sessionDuration →
      (newUpdatedSession s t).startedAt = t ∧
      (newUpdatedSession s t).requestCount = 1 ∧
      (s.requestCount > s.config.maxRequests → (newUpdatedSession s t).bannedAt = t) ∧
      (¬ s.requestCount > s.config.maxRequests →
        (newUpdatedSession s t).bannedAt = s.bannedAt) ∧
      (s.bannedAt ≠ t →
        ((newUpdatedSession s t).bannedAt = t ↔ s.requestCount > s.config.maxRequests))) ∧
    (t - s.startedAt < s.config.sessionDuration →
      (newUpdatedSession s t).requestCount = s.requestCount + 1 ∧
      (newUpdatedSession s t).bannedAt = s.bannedAt ∧
      (newUpdatedSession s t).startedAt = s.startedAt) := by
  refine ⟨rfl, ?_, ?_⟩
  · intro hexp
    unfold newUpdatedSession
    rw [if_pos hexp]
    by_cases h2 : s.requestCount > s.config.maxRequests
    · simp [h2]
    · simp [h2]
  · intro hin
    unfold newUpdatedSession
    rw [if_neg (by omega)]
    exact ⟨rfl, rfl, rfl⟩

/-- Witness for C2 at a concrete input: tracker with count 5, max 3, window 10,
window started at 0, not banned, advanced at time 12 (window expired,
over limit). -/
theorem claim_C2_witness :
    (newUpdatedSession ⟨5, ⟨7, 10, 3⟩, 0, 0⟩ 12).startedAt = 12 ∧
    (newUpdatedSession ⟨5, ⟨7, 10, 3⟩, 0, 0⟩ 12).requestCount = 1 ∧
    (newUpdatedSession ⟨5, ⟨7, 10, 3⟩, 0, 0⟩ 12).bannedAt = 12 := by
  have h := (claim_C2 ⟨[], 0⟩ 12 ⟨5, ⟨7, 10, 3⟩, 0, 0⟩).2.1 (by decide)
  exact ⟨h.1, h.2.1, h.2.2.1 (by decide)⟩

/-- Claim C3 (code_bug): `newClientEntry` creates one tracker per configured
policy with window start `t` and no ban, but the Go composite literal leaves
`requestCount` at its zero value 0 rather than the claimed 1 (the rollover
path in `newUpdatedEntry` resets the count to 1, so creation is inconsistent
with rollover).  This theorem evaluates the code at the failing input. -/
theorem claim_C3_eval :
    newClientEntry 100 [⟨5, 10, 3⟩]
      = { sessions := [⟨0, ⟨5, 10, 3⟩, 0, 100⟩], lastUpdatedAt := 100 } := by
  rfl

/-- Claim C4 (confirmed): once a tracker's ban time is non-zero, no sequence of
updates at clock timestamps (which, as readings of a real clock, are never
Go's zero `time.Time`, hence the non-zero hypothesis) ever produces a zero ban
time again. -/
theorem claim_C4 (s : Session) (ts : List Int) (hb : s.bannedAt ≠ 0)
    (hts : ∀ t ∈ ts, t ≠ 0) :
    (List.foldl newUpdatedSession s ts).bannedAt ≠ 0 := by
  induction ts generalizing s with
  | nil => exact hb
  | cons t ts ih =>
    exact ih (newUpdatedSession s t)
      (bannedAt_ne_zero_step s t (hts t (by simp)) hb)
      (fun u hu => hts u (by simp [hu]))

/-- Witness for C4: a banned tracker (ban time 7) updated at times 4 (still in
window) and 20 (window expired, in limit) keeps a non-zero ban time. -/
theorem claim_C4_witness :
    (List.foldl newUpdatedSession ⟨0, ⟨5, 10, 3⟩, 7, 0⟩ [4, 20]).bannedAt ≠ 0 :=
  claim_C4 ⟨0, ⟨5, 10, 3⟩, 7, 0⟩ [4, 20] (by decide) (by decide)

/-- Claim C9 (confirmed): a grooming sweep at time `t` keeps exactly the cache
entries whose idle time is at most the idle threshold, and it keeps them
unchanged; entries whose idle time strictly exceeds the threshold are removed. -/
theorem claim_C9 (t idle : Int) (cache : List (String × ClientEntry))
    (p : String × ClientEntry) :
    p ∈ onHostCacheGroomingTick t idle cache
      ↔ (p ∈ cache ∧ t - p.2.lastUpdatedAt ≤ idle) := by
  simp [onHostCacheGroomingTick, deleteFunc, List.mem_filter, not_lt]

/-- Claim C10 (confirmed): the configured ban duration is stored but never
read.  Overriding every tracker's ban duration commutes with the update
algorithm and does not change the banned check, so two configurations that
differ only in ban duration are observationally identical. -/
theorem claim_C10 (b t : Int) (s : Session) (e : ClientEntry) :
    newUpdatedSession (setBanDuration b s) t = setBanDuration b (newUpdatedSession s t) ∧
    newUpdatedEntry (mapBanDuration b e) t = mapBanDuration b (newUpdatedEntry e t) ∧
    ClientEntry.isBanned (mapBanDuration b e) = ClientEntry.isBanned e := by
  have hsess : ∀ s0 : Session,
      newUpdatedSession (setBanDuration b s0) t = setBanDuration b (newUpdatedSession s0 t) := by
    intro s0
    simp only [newUpdatedSession, setBanDuration]
    by_cases h1 : t - s0.startedAt ≥ s0.config.sessionDuration
    · simp only [if_pos h1]
    · simp only [if_neg h1]
  refine ⟨hsess s, ?_, ?_⟩
  · unfold newUpdatedEntry mapBanDuration
    simp only [List.map_map]
    refine congrArg (fun l => ClientEntry.mk l t) ?_
    exact List.map_congr_left (fun s0 _ => hsess s0)
  · unfold ClientEntry.isBanned mapBanDuration
    simp [List.any_map, Function.comp_def, setBanDuration]

/-! ## Claim C8: identity resolution -/

/-- Claim C8 (confirmed): identity resolution uses, in priority order, the
trusted proxy header (`fastly-client-ip`, whenever non-empty, even if a
forwarded-for header is also present), then the last value of
`x-forwarded-for`, then the host part of the connection address (when both
headers are absent and the address parses to a non-empty host, that host is
the resolved identity); and it fails exactly when none of these yields an
identity or parsing the connection address fails. -/
theorem claim_C8 (split : String → Except String String) (f : String)
    (xs : List String) (a : String) :
    (f ≠ "" → getApplicableHost split f xs a = .ok f) ∧
    (xs ≠ [] → f = "" → getApplicableHost split f xs a = .ok (xs.getLastD "")) ∧
    (∀ host, f = "" → xs = [] → split a = .ok host → host ≠ "" →
      getApplicableHost split f xs a = .ok host) ∧
    (exceptIsError (getApplicableHost split f xs a) = true ↔
      (f = "" ∧ xs = [] ∧ (exceptIsError (split a) = true ∨ split a = .ok ""))) := by
  refine ⟨?_, ?_, ?_, ?_⟩
  · intro hf
    simp [getApplicableHost, hf]
  · intro hxs hf
    cases xs with
    | nil => exact absurd rfl hxs
    | cons x xs => simp [getApplicableHost, hf]
  · intro host hf hxs hsplit hh
    subst hxs
    simp [getApplicableHost, hf, hsplit, hh]
  · by_cases hf : f = ""
    · cases xs with
      | cons x xs => simp [getApplicableHost, hf, exceptIsError]
      | nil =>
        cases hsplit : split a with
        | error e => simp [getApplicableHost, hf, hsplit, exceptIsError]
        | ok host =>
          by_cases hh : host = "" <;>
            simp [getApplicableHost, hf, hsplit, exceptIsError, hh]
    · simp [getApplicableHost, hf, exceptIsError]

/-- Witness for C8: with both a trusted proxy header and a forwarded-for
header present, the trusted proxy header wins; with no headers and a parsable
address, the parsed host is the identity; and with no headers and an
unparsable address, resolution fails. -/
theorem claim_C8_witness :
    getApplicableHost (fun s => Except.ok s) "9.9.9.9" ["8.8.8.8"] "x" = .ok "9.9.9.9" ∧
    getApplicableHost (fun _ => Except.ok "7.7.7.7") "" [] "addr" = .ok "7.7.7.7" ∧
    exceptIsError (getApplicableHost (fun _ => Except.error "bad") "" [] "x") = true := by
  refine ⟨?_, ?_, ?_⟩
  · exact (claim_C8 (fun s => Except.ok s) "9.9.9.9" ["8.8.8.8"] "x").1 (by decide)
  · exact (claim_C8 (fun _ => Except.ok "7.7.7.7") "" [] "addr").2.2.1
      "7.7.7.7" rfl rfl rfl (by decide)
  · exact (claim_C8 (fun _ => Except.error "bad") "" [] "x").2.2.2.mpr
      ⟨rfl, rfl, Or.inl rfl⟩

/-! ## Claim C1: end-to-end throttling behaviour of a single policy -/

/-- Claim C1 (corrected), counterexample to the claim as stated: with a single
policy maxRequests = N = 1 and sessionDuration = W = 10, a new client sends
N + 1 = 2 requests (at times 0 and 1) within one window; the claim demands the
second request be rejected, but the filter forwards every request of the run
(`false` = forwarded), and a third in-window request is forwarded as well —
within a window the code never rejects, and bans are only established at
window rollover. -/
theorem claim_C1_counterexample :
    (serveHostAll [⟨5, 10, 1⟩] none [0, 1, 2]).2 = [false, false, false] := by
  decide

/-- Claim C1 (corrected), amended behaviour proved against the code: for a new
client under a single policy (maxRequests = N, sessionDuration = W), the
creating request is not counted, so after N + 2 requests inside the first
window the count is N + 1 > N and no request has been rejected; the first
request arriving once the window has elapsed (`t1 - t0 ≥ W`) establishes the
ban and is rejected, and every request after that is rejected as well (the
ban time is never cleared; subsequent timestamps are clock readings, never
Go's zero time). -/
theorem claim_C1_amended (N : Nat) (W B t0 t1 : Int) (ts rest : List Int)
    (ht0 : 0 ≤ t0) (hW : 0 < W)
    (hts : ∀ t ∈ ts, t - t0 < W) (hlen : ts.length = N + 1)
    (ht1 : W ≤ t1 - t0) (hrest : ∀ u ∈ rest, u ≠ 0) :
    (serveHostAll [⟨B, W, (N : Int)⟩] none (t0 :: ts ++ t1 :: rest)).2
      = List.replicate (N + 2) false ++ List.replicate (rest.length + 1) true := by
  set cfg : SessionConfig := ⟨B, W, (N : Int)⟩ with hcfg
  have hdur : cfg.sessionDuration = W := rfl
  have hmax : cfg.maxRequests = (N : Int) := rfl
  have ht1ne : t1 ≠ 0 := by omega
  -- the first request creates the entry and is forwarded
  have step1 : (serveHostAll [cfg] none (t0 :: ts ++ t1 :: rest)).2
      = false :: (serveHostAll [cfg]
          (some ⟨[⟨0, cfg, 0, t0⟩], t0⟩) (ts ++ t1 :: rest)).2 := by
    simp [serveHostAll, serveHost, newClientEntry, ClientEntry.isBanned]
  -- the N+1 in-window requests are forwarded and accumulate the count
  obtain ⟨lu2, h2⟩ := serveHostAll_inWindow cfg ts 0 t0 t0 (by
    intro t htmem
    rw [hdur]
    exact hts t htmem)
  rw [show (0 : Int) + (ts.length : Int) = (ts.length : Int) from by ring] at h2
  -- the request at t1 rolls the window over, establishes the ban, is rejected
  have hover : cfg.maxRequests < (ts.length : Int) := by
    rw [hmax, hlen]; push_cast; omega
  have hE2 : newUpdatedEntry ⟨[⟨(ts.length : Int), cfg, 0, t0⟩], lu2⟩ t1
      = ⟨[⟨1, cfg, t1, t1⟩], t1⟩ := by
    simp [newUpdatedEntry,
      expiredOver_step ((ts.length : Int)) cfg t0 t1 (by rw [hdur]; exact ht1) hover]
  have hb2 : (⟨[⟨1, cfg, t1, t1⟩], t1⟩ : ClientEntry).isBanned = true := by
    simp [ClientEntry.isBanned, ht1ne]
  -- every later request hits a banned entry and is rejected
  have h4 := serveHostAll_banned [cfg] rest ⟨[⟨1, cfg, t1, t1⟩], t1⟩ hb2 hrest
  have h5 : (serveHostAll [cfg]
        (some (⟨[⟨(ts.length : Int), cfg, 0, t0⟩], lu2⟩ : ClientEntry))
        (t1 :: rest)).2
      = true :: List.replicate rest.length true := by
    simp [serveHostAll, serveHost, hE2, hb2, h4]
  rw [step1, serveHostAll_append, h2]
  simp only [h5]
  rw [hlen]
  simp [List.replicate_succ]

/-- Witness for the amended C1: N = 1, W = 10; requests at 0, 1, 2 fill the
first window (count reaches 2 > 1), the request at 10 is rejected, and so is
the one at 11. -/
theorem claim_C1_amended_witness :
    (serveHostAll [⟨5, 10, 1⟩] none [0, 1, 2, 10, 11]).2
      = [false, false, false, true, true] := by
  have h := claim_C1_amended 1 10 5 0 10 [1, 2] [11]
    (by decide) (by decide) (by decide) (by decide) (by decide) (by decide)
  simpa using h

/-! ## URL pattern router (internal/urlpathpatternhandler)

String manipulation is modelled at the character-list level (structural
recursion over `String.data`) so that every definition is kernel-computable;
each definition mirrors the corresponding Go line. -/

/-- Model of `strings.TrimPrefix(s, "/")`: drop one leading slash if present. -/
def trimLeadingSlash : List Char → List Char
  | '/' :: rest => rest
  | cs => cs

/-- Model of `strings.Split(s, "/")` for the one-character separator used by
`splitParts`: split at every slash, keeping empty segments. -/
def splitOnSlash : List Char → List Char → List String
  | [], acc => [String.mk acc.reverse]
  | c :: rest, acc =>
    if c = '/' then String.mk acc.reverse :: splitOnSlash rest []
    else splitOnSlash rest (c :: acc)

/-- Model of `splitParts`: `strings.Split(strings.TrimPrefix(s, "/"), "/")`. -/
def splitParts (s : String) : List String :=
  splitOnSlash (trimLeadingSlash s.data) []

/-- Model of `strings.HasPrefix(part, ":")`: the segment's first character is
the capture marker. -/
def isCaptureSeg (seg : String) : Bool :=
  match seg.data with
  | c :: _ => c = ':'
  | [] => false

/-- Byte-wise lexicographic comparison of character lists, the model of Go's
`cmp.Compare` on strings (UTF-8 byte order coincides with code-point order). -/
def cmpCharList : List Char → List Char → Int
  | [], [] => 0
  | [], _ :: _ => -1
  | _ :: _, [] => 1
  | a :: as, b :: bs =>
    if a.toNat < b.toNat then -1
    else if b.toNat < a.toNat then 1
    else cmpCharList as bs

/-- Model of `cmp.Compare` on Go strings. -/
def cmpStrings (a b : String) : Int := cmpCharList a.data b.data

/-- Model of the index loop of `compareParts` (only entered for equal-length
sequences): tokens with a leading colon in the LEFT sequence are skipped;
otherwise the first lexicographic difference decides. -/
def comparePartsLoop : List String → List String → Int
  | l :: ls, r :: rs =>
    if isCaptureSeg l then comparePartsLoop ls rs
    else if cmpStrings l r < 0 then -1
    else if 0 < cmpStrings l r then 1
    else comparePartsLoop ls rs
  | _, _ => 0

/-- Model of `compareParts`: length first (shorter sorts first), then the
left-capture-skipping index loop. -/
def compareParts (lparts rparts : List String) : Int :=
  if lparts.length < rparts.length then -1
  else if rparts.length < lparts.length then 1
  else comparePartsLoop lparts rparts

/-- Model of `ComparePatternHandlers`: compare the two handlers' pattern
strings via `compareParts`. -/
def comparePatterns (l r : String) : Int :=
  compareParts (splitParts l) (splitParts r)

/-- Model of `ComparePatternHandlerToPath`: pattern on the left, concrete
request path on the right. -/
def comparePatternToPath (pattern path : String) : Int :=
  compareParts (splitParts pattern) (splitParts path)

/-- Model of the capture-erasure step of `ValidateResponders`: replace every
capture segment by the empty placeholder. -/
def staticPatternOf (pattern : String) : List String :=
  (splitParts pattern).map (fun part => if isCaptureSeg part then "" else part)

/-- Model of the inner loop of `ValidateResponders`.  In the Go code the flag
`alreadySaved` starts `true` and is set to `false` on the first length or
segment mismatch (breaking out of the saved-pattern loop, or just the segment
loop, respectively); since the flag is never reset to `true`, the loop's final
value is `false` as soon as ANY saved pattern mismatches, which is exactly
this recursion (for equal lengths, list inequality is precisely "some index
differs"). -/
def alreadySavedCheck : List (List String) → List String → Bool
  | [], _ => true
  | saved :: rest, sp =>
    if sp.length ≠ saved.length then false
    else if sp ≠ saved then false
    else alreadySavedCheck rest sp

/-- Result of `ValidateResponders`: `ok` models a nil error,
`errAmbiguousCaptureVariableNames` models `ErrAmbiguousCaptureVariableNames`. -/
inductive ValidateResult where
  | ok : ValidateResult
  | errAmbiguousCaptureVariableNames : ValidateResult
deriving DecidableEq

/-- Model of the outer loop of `ValidateResponders` over the handlers'
patterns, accumulating the erased patterns seen so far. -/
def validateLoop : List String → List (List String) → ValidateResult
  | [], _ => .ok
  | p :: rest, savedPatterns =>
    let sp := staticPatternOf p
    if savedPatterns.length < 1 then validateLoop rest (savedPatterns ++ [sp])
    else if alreadySavedCheck savedPatterns sp then .errAmbiguousCaptureVariableNames
    else validateLoop rest (savedPatterns ++ [sp])

/-- Model of `ValidateResponders` on the handlers' pattern strings. -/
def validateResponders (patterns : List String) : ValidateResult :=
  validateLoop patterns []

/-- Model of a Go map assignment `m[k] = v` on an association list. -/
def mapSet (m : List (String × String)) (k v : String) : List (String × String) :=
  match m with
  | [] => [(k, v)]
  | (k2, v2) :: rest => if k2 = k then (k, v) :: rest else (k2, v2) :: mapSet rest k v

/-- Model of the capture-extraction loop of `urlPatternHandler.ServeHTTP`:
`contextVal[patternToken] = pathParts[i]` for every capture token — note the
map key is the full pattern token including the leading colon. -/
def extractCaptures : List String → List String → List (String × String) → List (String × String)
  | pt :: pts, pa :: pas, m =>
    extractCaptures pts pas (if isCaptureSeg pt then mapSet m pt pa else m)
  | _, _, m => m

/-- Model of `urlPatternHandler.ServeHTTP` for one handler: `none` models the
`panic("unimplemented")` on a segment-count mismatch, `some captures` models
invoking the wrapped handler with the extracted capture map attached. -/
def urlPatternServe (pattern path : String) : Option (List (String × String)) :=
  if (splitParts path).length ≠ (splitParts pattern).length then none
  else some (extractCaptures (splitParts pattern) (splitParts path) [])

/-- Model of the loop of Go's `slices.BinarySearchFunc`, with an explicit fuel
argument to keep the definition structurally recursive.  Each iteration with
`i < j` strictly shrinks `j - i`, so fuel `j - i` (as supplied by `bsLoop`)
never runs out before the loop's own exit condition `i ≥ j` holds. -/
def bsLoopFuel (patterns : List String) (path : String) : Nat → Nat → Nat → Nat
  | 0, i, _ => i
  | fuel + 1, i, j =>
    if i < j then
      let mid := (i + j) / 2
      if comparePatternToPath (patterns.getD mid "") path < 0 then
        bsLoopFuel patterns path fuel (mid + 1) j
      else bsLoopFuel patterns path fuel i mid
    else i

/-- Model of the index computation of `slices.BinarySearchFunc(handlers, path,
ComparePatternHandlerToPath)`. -/
def bsLoop (patterns : List String) (path : String) (i j : Nat) : Nat :=
  bsLoopFuel patterns path (j - i) i j

/-- Model of the (position, found) result of `slices.BinarySearchFunc`:
`some idx` iff the final position is in range and compares equal to the path. -/
def bsFound (patterns : List String) (path : String) : Option Nat :=
  if bsLoop patterns path 0 patterns.length < patterns.length ∧
      comparePatternToPath
        (patterns.getD (bsLoop patterns path 0 patterns.length) "") path = 0
  then some (bsLoop patterns path 0 patterns.length) else none

/-- Observable outcome of `sectionHandler.ServeHTTP`. -/
inductive DispatchResult where
  | handler : Nat → List (String × String) → DispatchResult
  | notFound : DispatchResult
  | panicked : DispatchResult
deriving DecidableEq

/-- Model of `sectionHandler.ServeHTTP`: binary-search the sorted handler
table against the request path; on a hit run the matched pattern handler, on
a miss invoke the not-found collaborator. -/
def sectionServe (patterns : List String) (path : String) : DispatchResult :=
  match bsFound patterns path with
  | some idx =>
    match urlPatternServe (patterns.getD idx "") path with
    | some captures => .handler idx captures
    | none => .panicked
  | none => .notFound

/-! ## Helper lemmas for the router -/

theorem cmpCharList_self (cs : List Char) : cmpCharList cs cs = 0 := by
  induction cs with
  | nil => rfl
  | cons a as ih => simp [cmpCharList, ih]

theorem cmpStrings_self (a : String) : cmpStrings a a = 0 :=
  cmpCharList_self a.data

theorem comparePartsLoop_self (l : List String) : comparePartsLoop l l = 0 := by
  induction l with
  | nil => rfl
  | cons s ls ih =>
    by_cases hc : isCaptureSeg s
    · simp [comparePartsLoop, hc, ih]
    · simp [comparePartsLoop, hc, cmpStrings_self, ih]

/-- A zero comparison result is only possible for equal segment counts. -/
theorem compareParts_eq_zero_length {l r : List String}
    (h : compareParts l r = 0) : l.length = r.length := by
  unfold compareParts at h
  by_cases h1 : l.length < r.length
  · rw [if_pos h1] at h
    exact absurd h (by decide)
  · by_cases h2 : r.length < l.length
    · rw [if_neg h1, if_pos h2] at h
      exact absurd h (by decide)
    · omega

/-! ## Claims C5, C6, C7 -/

/-- Claim C5 (code_bug): `ValidateResponders` is meant (per its own doc
comment and the spec) to reject a new pattern whose capture-erased form equals
that of any one registered pattern.  The adjacent two-pattern case is indeed
rejected, but with the distinct pattern `/posts/:id` registered in between,
`/users/:name` is accepted even though it erases identically to `/users/:id`:
the `alreadySaved` flag, once falsified by a non-matching saved pattern, is
never reset.  This theorem evaluates the code on both inputs. -/
theorem claim_C5_eval :
    validateResponders ["/users/:id", "/users/:name"]
      = .errAmbiguousCaptureVariableNames ∧
    validateResponders ["/users/:id", "/posts/:id", "/users/:name"] = .ok ∧
    staticPatternOf "/users/:id" = staticPatternOf "/users/:name" ∧
    staticPatternOf "/users/:id" ≠ staticPatternOf "/posts/:id" := by
  refine ⟨rfl, rfl, rfl, ?_⟩
  decide

/-- Claim C6 (corrected), counterexample to the claim as stated: the
comparison skips capture segments only in its LEFT argument, so
`compare(/users/abc, /users/:id) = 1` while `compare(/users/:id, /users/abc)
= 0` — antisymmetry fails, so the comparison is not a total order and capture
segments do participate in ordering when they appear on the right. -/
theorem claim_C6_counterexample :
    comparePatterns "/users/abc" "/users/:id" = 1 ∧
    comparePatterns "/users/:id" "/users/abc" = 0 := by
  exact ⟨rfl, rfl⟩

/-- Claim C6 (corrected), amended properties proved against the code:
`compare(p, p) = 0` for every pattern `p`, and sequence length is the primary
discriminator (fewer segments compares less, more compares greater). -/
theorem claim_C6_amended :
    (∀ p : String, comparePatterns p p = 0) ∧
    (∀ lp rp : String,
      (splitParts lp).length < (splitParts rp).length → comparePatterns lp rp = -1) ∧
    (∀ lp rp : String,
      (splitParts rp).length < (splitParts lp).length → comparePatterns lp rp = 1) := by
  refine ⟨?_, ?_, ?_⟩
  · intro p
    unfold comparePatterns compareParts
    rw [if_neg (lt_irrefl _), if_neg (lt_irrefl _)]
    exact comparePartsLoop_self _
  · intro lp rp h
    unfold comparePatterns compareParts
    rw [if_pos h]
  · intro lp rp h
    unfold comparePatterns compareParts
    rw [if_neg (by omega), if_pos h]

/-- Witness for the amended C6 at concrete patterns. -/
theorem claim_C6_amended_witness :
    comparePatterns "/a" "/a" = 0 ∧
    comparePatterns "/a" "/a/b" = -1 ∧
    comparePatterns "/a/b" "/a" = 1 :=
  ⟨claim_C6_amended.1 "/a",
   claim_C6_amended.2.1 "/a" "/a/b" (by decide),
   claim_C6_amended.2.2 "/a/b" "/a" (by decide)⟩

/-- Claim C7 (corrected), counterexample to the claim as stated: matching
`/users/42` against `/users/:id` yields the capture map `{":id": "42"}` — the
key is the full pattern token including the leading colon marker, so the
claimed `{id: "42"}` is wrong: looking up the bare capture name `id` finds
nothing. -/
theorem claim_C7_counterexample :
    extractCaptures (splitParts "/users/:id") (splitParts "/users/42") []
      = [(":id", "42")] ∧
    List.lookup "id"
      (extractCaptures (splitParts "/users/:id") (splitParts "/users/42") []) = none := by
  exact ⟨rfl, rfl⟩

/-- Claim C7 (corrected), amended behaviour proved against the code: when the
binary search finds a matching pattern, the bound handler is invoked with the
capture map keyed by the full capture tokens (leading colon included); when it
finds none, the not-found collaborator runs.  The three concrete dispatch
cases of the spec hold with the corrected keys. -/
theorem claim_C7_amended :
    (∀ (patterns : List String) (path : String) (idx : Nat),
      bsFound patterns path = some idx →
      sectionServe patterns path
        = .handler idx (extractCaptures (splitParts (patterns.getD idx ""))
            (splitParts path) [])) ∧
    (∀ (patterns : List String) (path : String),
      bsFound patterns path = none → sectionServe patterns path = .notFound) ∧
    sectionServe ["/users/:id", "/users/:id/orders"] "/users/42"
      = .handler 0 [(":id", "42")] ∧
    sectionServe ["/users/:id", "/users/:id/orders"] "/users/42/orders"
      = .handler 1 [(":id", "42")] ∧
    sectionServe ["/users/:id", "/users/:id/orders"] "/users" = .notFound := by
  refine ⟨?_, ?_, rfl, rfl, rfl⟩
  · intro patterns path idx h
    have hcmp : comparePatternToPath (patterns.getD idx "") path = 0 := by
      unfold bsFound at h
      by_cases hc : bsLoop patterns path 0 patterns.length < patterns.length ∧
          comparePatternToPath
            (patterns.getD (bsLoop patterns path 0 patterns.length) "") path = 0
      · rw [if_pos hc] at h
        have hidx : bsLoop patterns path 0 patterns.length = idx := Option.some.inj h
        rw [← hidx]
        exact hc.2
      · rw [if_neg hc] at h
        exact absurd h (by simp)
    have hlen : (splitParts (patterns.getD idx "")).length = (splitParts path).length :=
      compareParts_eq_zero_length hcmp
    have hne : ¬ ((splitParts path).length ≠ (splitParts (patterns.getD idx "")).length) := by
      omega
    have hurl : urlPatternServe (patterns.getD idx "") path
        = some (extractCaptures (splitParts (patterns.getD idx "")) (splitParts path) []) := by
      unfold urlPatternServe
      rw [if_neg hne]
    simp only [sectionServe, h, hurl]
  · intro patterns path h
    simp only [sectionServe, h]

/-- Witness for the amended C7: a found match dispatches with the extracted
captures. -/
theorem claim_C7_amended_witness :
    sectionServe ["/a/:x"] "/a/7"
      = .handler 0 (extractCaptures (splitParts "/a/:x") (splitParts "/a/7") []) :=
  claim_C7_amended.1 ["/a/:x"] "/a/7" 0 (by decide)
